import Mathlib

/-!
Shallow embedding of `src/app.py` (png2pdf: a single-page image-to-PDF
converter) and proofs about its pipeline: image loading, size estimation,
quality presets, resampling, and PDF assembly.

The external image library (Pillow) is treated as a collaborator: its
interpolation filter and per-page codec are parameters of the embedding,
constrained only by their documented interface (resize returns an image of
the requested size; save emits one page per appended image). Machine floats
are modeled as rationals; the scale factors occurring in the program
(1, 1/2, 1/4) are dyadic, so the modeled arithmetic is exact on them.
-/

namespace PngToPdf

/-- RGB pixel: one value per channel. -/
abbrev Pixel := ℕ × ℕ × ℕ

/-- An in-memory decoded bitmap, as produced by Image.open / convert:
width, height, a color-mode string, and a pixel grid. -/
structure Bitmap where
  width : ℕ
  height : ℕ
  mode : String
  pix : ℕ → ℕ → Pixel

/-- Python int() applied to a rational: truncation toward zero. -/
def pyInt (q : ℚ) : ℤ := if 0 ≤ q then ⌊q⌋ else ⌈q⌉

/-- Per-axis output dimension of the downscale branch, app.py line 104:
max(1, int(d * scale)). -/
def newDim (d : ℕ) (scale : ℚ) : ℕ := max 1 (pyInt ((d : ℚ) * scale)).toNat

/-- PIL Image.resize: returns a new image of exactly the requested size.
The pixel content is produced by the interpolation filter (LANCZOS), an
external codec modeled as a parameter. The input image is not modified
(resize allocates a fresh image). -/
def Bitmap.resize (flt : Bitmap → ℕ → ℕ → (ℕ → ℕ → Pixel))
    (im : Bitmap) (sz : ℕ × ℕ) : Bitmap :=
  { width := sz.1, height := sz.2, mode := im.mode, pix := flt im sz.1 sz.2 }

/-- One iteration of the resize loop, app.py lines 101-108: if scale < 1.0
resize to (max(1, int(w*scale)), max(1, int(h*scale))) with the LANCZOS
filter, else pass the image through unchanged. -/
def resample (flt : Bitmap → ℕ → ℕ → (ℕ → ℕ → Pixel))
    (scale : ℚ) (im : Bitmap) : Bitmap :=
  if scale < 1 then
    Bitmap.resize flt im (newDim im.width scale, newDim im.height scale)
  else
    im

/-- A quality preset: label, scale factor and DPI metadata value. -/
structure Preset where
  label : String
  scale : ℚ
  dpi : ℕ

/-- QUALITY_PRESETS, app.py lines 42-46. A Python dict preserves insertion
order, so it is modeled as an ordered list; a Lean definition is immutable,
which captures read-only-after-initialization by construction. -/
def QUALITY_PRESETS : List Preset :=
  [⟨"High (300 DPI)", 1, 300⟩,
   ⟨"Medium (150 DPI)", 1/2, 150⟩,
   ⟨"Low (72 DPI)", 1/4, 72⟩]

/-- Preset lookup QUALITY_PRESETS[quality_choice], app.py line 85. -/
def selectPreset (label : String) : Option Preset :=
  QUALITY_PRESETS.find? (fun p => p.label == label)

/-- estimate_pdf_size, app.py lines 48-54:
total_bytes * max(min(scale, 1.0), 0.05). -/
def estimate_pdf_size (total_bytes : ℚ) (scale : ℚ) : ℚ :=
  total_bytes * max (min scale 1) (1/20)

/-- Written from the specification text, for comparison with the code:
clamp(x, lo, hi). -/
def clamp (lo hi x : ℚ) : ℚ := min (max x lo) hi

/-- One page of the output PDF: the embedded bitmap plus the resolution
(DPI) metadata tag set by the resolution= argument of save. -/
structure Page where
  image : Bitmap
  resolution : ℕ

/-- The PDF assembly call, app.py lines 113-119:
processed[0].save(..., save_all=True, append_images=processed[1:],
resolution=dpi). On an empty list, processed[0] raises IndexError (caught
by the surrounding try/except), so no document is produced; otherwise the
document has one page per bitmap, in list order, each page tagged with the
given resolution. -/
def assemble (processed : List Bitmap) (dpi : ℕ) : Option (List Page) :=
  match processed with
  | [] => none
  | _ :: _ => some (processed.map fun im => ⟨im, dpi⟩)

/-- Serialization of a page sequence by the underlying codec, modeled as a
fallible external per-page encoder: if encoding any page fails, the
exception propagates (app.py try/except, lines 98-130) and no bytes are
produced. -/
def encodePages {β : Type} (encode : Page → Option β) : List Page → Option (List β)
  | [] => some []
  | p :: ps =>
    match encode p with
    | none => none
    | some b =>
      match encodePages encode ps with
      | none => none
      | some bs => some (b :: bs)

/-- The whole serialization step: page assembly followed by per-page
encoding; any failure yields no output at all (the except branch shows an
error and never reaches the download button). -/
def assembleBytes {β : Type} (encode : Page → Option β)
    (processed : List Bitmap) (dpi : ℕ) : Option (List β) :=
  (assemble processed dpi).bind (encodePages encode)

/-- An uploaded file as seen by the loader loop: display name, declared
byte size, raw data. -/
structure UploadedFile where
  name : String
  size : ℕ
  data : List ℕ

/-- The accumulator of the loading loop, app.py lines 24-37: successfully
decoded images (in upload order), the running total of their byte sizes,
and the names of files whose decoding failed (each reported in a per-file
error message naming the file). -/
structure LoadState where
  images : List Bitmap
  totalBytes : ℕ
  errors : List String

/-- One iteration of the loading loop, app.py lines 28-37: try to decode
(Image.open, modeled as the external fallible function dec); on success
normalize the mode to RGB (img.convert, modeled as the external conv) and
append, accumulating the byte size; on failure record a per-file error
naming the file and continue. -/
def loadOne (dec : UploadedFile → Option Bitmap) (conv : Bitmap → Bitmap)
    (st : LoadState) (f : UploadedFile) : LoadState :=
  match dec f with
  | some img =>
    let img2 := if img.mode ≠ "RGB" then conv img else img
    { st with images := st.images ++ [img2], totalBytes := st.totalBytes + f.size }
  | none => { st with errors := st.errors ++ [f.name] }

/-- The full loading loop over the uploaded batch, app.py lines 24-37. -/
def loadImages (dec : UploadedFile → Option Bitmap) (conv : Bitmap → Bitmap)
    (files : List UploadedFile) : LoadState :=
  files.foldl (loadOne dec conv) ⟨[], 0, []⟩

/-- The Convert-to-PDF handler body, app.py lines 97-119: resample every
loaded image at the selected scale, then assemble the PDF with the selected
DPI tag. -/
def convertToPdf (flt : Bitmap → ℕ → ℕ → (ℕ → ℕ → Pixel))
    (images : List Bitmap) (scale : ℚ) (dpi : ℕ) : Option (List Page) :=
  assemble (images.map (resample flt scale)) dpi

/-- Written from the specification text, for comparison with the code:
per-axis output dimension computed with rounding, max(1, round(d * scale)). -/
def specRoundDim (d : ℕ) (scale : ℚ) : ℕ := max 1 (round ((d : ℚ) * scale)).toNat

/-- A constant interpolation filter, used to instantiate the external-codec
parameter on concrete inputs. -/
def constFilter : Bitmap → ℕ → ℕ → (ℕ → ℕ → Pixel) :=
  fun _ _ _ => fun _ _ => (0, 0, 0)

/-- A concrete all-black RGB bitmap of the given dimensions. -/
def bmp (w h : ℕ) : Bitmap := ⟨w, h, "RGB", fun _ _ => (0, 0, 0)⟩

/-- A concrete decoder for instantiating theorems: every file decodes to a
1x1 RGB bitmap except the one named bad, which fails. -/
def demoDecode : UploadedFile → Option Bitmap :=
  fun f => if f.name = "bad" then none else some (bmp 1 1)

/-- A concrete five-file batch with exactly one undecodable file. -/
def demoFiles : List UploadedFile :=
  [⟨"a", 10, []⟩, ⟨"b", 20, []⟩, ⟨"bad", 30, []⟩, ⟨"c", 40, []⟩, ⟨"d", 50, []⟩]

/-- The loading loop appends one image per successful decode and one error
entry per failed decode, starting from any accumulator state. -/
lemma foldl_load_counts (dec : UploadedFile → Option Bitmap) (conv : Bitmap → Bitmap)
    (files : List UploadedFile) : ∀ (st : LoadState),
    ((files.foldl (loadOne dec conv) st).images).length
      = st.images.length + files.countP (fun f => (dec f).isSome)
    ∧ ((files.foldl (loadOne dec conv) st).errors).length
      = st.errors.length + files.countP (fun f => (dec f).isNone) := by
  induction files with
  | nil => intro st; simp
  | cons f fs ih =>
    intro st
    obtain ⟨ih1, ih2⟩ := ih (loadOne dec conv st f)
    simp only [List.foldl_cons, List.countP_cons] at *
    cases hdf : dec f with
    | some img =>
      constructor
      · rw [ih1]; simp [loadOne, hdf]
        omega
      · rw [ih2]; simp [loadOne, hdf]
    | none =>
      constructor
      · rw [ih1]; simp [loadOne, hdf]
      · rw [ih2]; simp [loadOne, hdf]
        omega

/-- Every error entry produced by the loading loop either was already in
the accumulator or names a file of the batch whose decoding failed. -/
lemma foldl_load_errors_mem (dec : UploadedFile → Option Bitmap) (conv : Bitmap → Bitmap)
    (files : List UploadedFile) : ∀ (st : LoadState),
    ∀ e ∈ (files.foldl (loadOne dec conv) st).errors,
      e ∈ st.errors ∨ ∃ f ∈ files, (dec f).isNone ∧ e = f.name := by
  induction files with
  | nil => intro st e he; exact Or.inl he
  | cons f fs ih =>
    intro st e he
    simp only [List.foldl_cons] at he
    rcases ih (loadOne dec conv st f) e he with h | ⟨g, hg, hgd, hge⟩
    · cases hdf : dec f with
      | some img =>
        simp [loadOne, hdf] at h
        exact Or.inl h
      | none =>
        simp [loadOne, hdf, List.mem_append] at h
        rcases h with h | h
        · exact Or.inl h
        · exact Or.inr ⟨f, List.mem_cons_self f fs, by simp [hdf], h⟩
    · exact Or.inr ⟨g, List.mem_cons_of_mem f hg, hgd, hge⟩

/-- If encoding any page of the sequence fails, the whole per-page
serialization fails. -/
lemma encodePages_eq_none {β : Type} (encode : Page → Option β)
    (ps : List Page) (h : ∃ p ∈ ps, encode p = none) :
    encodePages encode ps = none := by
  induction ps with
  | nil => simp at h
  | cons p ps ih =>
    obtain ⟨q, hq, hqe⟩ := h
    rcases List.mem_cons.mp hq with rfl | hq2
    · simp [encodePages, hqe]
    · cases hep : encode p with
      | none => simp [encodePages, hep]
      | some b => simp [encodePages, hep, ih ⟨q, hq2, hqe⟩]

/-- C1 (counterexample). The claim says the downscale branch computes
max(1, round(dim * scale)); the code (app.py line 104) computes
max(1, int(dim * scale)), truncating. On a 3x3 bitmap at scale 1/2 the
code produces width max(1, int(1.5)) = 1 while the round formula gives
max(1, round(1.5)) = 2, so the claim as stated is false. -/
theorem resample_round_formula_cex :
    ¬ ((resample constFilter (1/2) (bmp 3 3)).width = specRoundDim 3 (1/2)) := by
  have h1 : (resample constFilter (1/2) (bmp 3 3)).width = 1 := by
    norm_num [resample, Bitmap.resize, newDim, pyInt, bmp]
  have h2 : specRoundDim 3 (1/2) = 2 := by
    norm_num [specRoundDim, round_eq]
    rfl
  omega

/-- C1 (amended). For every input bitmap and every scale factor s < 1.0,
the resampler computes the output dimensions as
max(1, trunc(original_dimension * scale)) — Python int() truncation —
independently for width and for height, and produces a new bitmap of
exactly that size. -/
theorem resample_dims_trunc (flt : Bitmap → ℕ → ℕ → (ℕ → ℕ → Pixel))
    (scale : ℚ) (im : Bitmap) (hs : scale < 1) :
    (resample flt scale im).width = max 1 (pyInt ((im.width : ℚ) * scale)).toNat
    ∧ (resample flt scale im).height = max 1 (pyInt ((im.height : ℚ) * scale)).toNat := by
  simp [resample, if_pos hs, Bitmap.resize, newDim]

/-- C1 (witness). The amended dimension formula at a 3x3 bitmap and
scale 1/2. -/
theorem resample_dims_trunc_witness :
    (1 : ℚ)/2 < 1
    ∧ ((resample constFilter (1/2) (bmp 3 3)).width
          = max 1 (pyInt (((bmp 3 3).width : ℚ) * (1/2))).toNat
        ∧ (resample constFilter (1/2) (bmp 3 3)).height
          = max 1 (pyInt (((bmp 3 3).height : ℚ) * (1/2))).toNat) :=
  ⟨by norm_num, resample_dims_trunc constFilter (1/2) (bmp 3 3) (by norm_num)⟩

/-- C2. For every non-empty sequence of bitmaps and every resolution
value, assembly succeeds and produces exactly one page per bitmap, in the
same order as the input (the pages project back onto the input list), each
page carrying the given resolution tag. -/
theorem assemble_pages_in_order (l : List Bitmap) (dpi : ℕ) (hl : l ≠ []) :
    ∃ pages, assemble l dpi = some pages
      ∧ pages.length = l.length
      ∧ pages.map Page.image = l
      ∧ ∀ p ∈ pages, p.resolution = dpi := by
  match l with
  | [] => exact absurd rfl hl
  | a :: as =>
    refine ⟨(a :: as).map (fun im => ⟨im, dpi⟩), rfl, by simp,
      by simp [Function.comp_def], ?_⟩
    intro p hp
    simp only [List.mem_map] at hp
    obtain ⟨im, _, rfl⟩ := hp
    rfl

/-- C2 (witness). Assembling three concrete bitmaps at resolution 300. -/
theorem assemble_pages_in_order_witness :
    ([bmp 1 1, bmp 2 2, bmp 3 3] : List Bitmap) ≠ []
    ∧ ∃ pages, assemble [bmp 1 1, bmp 2 2, bmp 3 3] 300 = some pages
        ∧ pages.length = ([bmp 1 1, bmp 2 2, bmp 3 3] : List Bitmap).length
        ∧ pages.map Page.image = [bmp 1 1, bmp 2 2, bmp 3 3]
        ∧ ∀ p ∈ pages, p.resolution = 300 :=
  ⟨by simp, assemble_pages_in_order [bmp 1 1, bmp 2 2, bmp 3 3] 300 (by simp)⟩

/-- Successful and failed decodes of a batch partition it. -/
lemma countP_isSome_add_isNone (dec : UploadedFile → Option Bitmap)
    (files : List UploadedFile) :
    files.countP (fun f => (dec f).isSome)
      + files.countP (fun f => (dec f).isNone) = files.length := by
  induction files with
  | nil => simp
  | cons f fs ih =>
    simp only [List.countP_cons, List.length_cons]
    cases dec f <;> simp <;> omega

/-- C3. A decode failure is isolated to its file: in a batch of 5 files
of which exactly 1 fails to decode, the loader produces exactly 4 loaded
bitmaps and exactly 1 error entry, and every error entry names a file of
the batch whose decoding failed. The loader is a total function, so no
unhandled fault occurs. -/
theorem load_batch_isolated (dec : UploadedFile → Option Bitmap)
    (conv : Bitmap → Bitmap) (files : List UploadedFile)
    (h5 : files.length = 5)
    (h1 : files.countP (fun f => (dec f).isNone) = 1) :
    (loadImages dec conv files).images.length = 4
    ∧ (loadImages dec conv files).errors.length = 1
    ∧ ∀ e ∈ (loadImages dec conv files).errors,
        ∃ f ∈ files, (dec f).isNone ∧ e = f.name := by
  obtain ⟨hc1, hc2⟩ := foldl_load_counts dec conv files ⟨[], 0, []⟩
  have hsum := countP_isSome_add_isNone dec files
  refine ⟨?_, ?_, ?_⟩
  · simp only [loadImages, hc1]
    simp only [List.length_nil]
    omega
  · simp only [loadImages, hc2]
    simp only [List.length_nil]
    omega
  · intro e he
    rcases foldl_load_errors_mem dec conv files ⟨[], 0, []⟩ e he with h | h
    · simp at h
    · exact h

/-- C3 (witness). The concrete five-file batch with one bad file yields
4 bitmaps and 1 error. -/
theorem load_batch_isolated_witness :
    demoFiles.length = 5
    ∧ demoFiles.countP (fun f => (demoDecode f).isNone) = 1
    ∧ ((loadImages demoDecode id demoFiles).images.length = 4
        ∧ (loadImages demoDecode id demoFiles).errors.length = 1
        ∧ ∀ e ∈ (loadImages demoDecode id demoFiles).errors,
            ∃ f ∈ demoFiles, (demoDecode f).isNone ∧ e = f.name) :=
  ⟨by decide, by decide,
    load_batch_isolated demoDecode id demoFiles (by decide) (by decide)⟩

/-- C4. The size estimator is a pure function of its two arguments and
satisfies estimate(b, s) = b * clamp(s, 0.05, 1.0); for every b ≥ 0 the
result is nonnegative. -/
theorem estimate_pdf_size_spec (b s : ℚ) (hb : 0 ≤ b) :
    estimate_pdf_size b s = b * clamp (1/20) 1 s
    ∧ 0 ≤ estimate_pdf_size b s := by
  constructor
  · unfold estimate_pdf_size clamp
    congr 1
    rcases le_total s (1/20) with h | h
    · rw [min_eq_left (h.trans (by norm_num)), max_eq_right h,
        min_eq_left (by norm_num : (1:ℚ)/20 ≤ 1)]
    · rw [max_eq_left h, max_eq_left (le_min h (by norm_num))]
  · exact mul_nonneg hb
      ((by norm_num : (0:ℚ) ≤ 1/20).trans (le_max_right _ _))

/-- C4 (witness). The estimator at 1000 bytes and scale 1/2. -/
theorem estimate_pdf_size_spec_witness :
    (0 : ℚ) ≤ 1000
    ∧ (estimate_pdf_size 1000 (1/2) = 1000 * clamp (1/20) 1 (1/2)
        ∧ 0 ≤ estimate_pdf_size 1000 (1/2)) :=
  ⟨by norm_num, estimate_pdf_size_spec 1000 (1/2) (by norm_num)⟩

/-- C5. The serialization step is all-or-nothing: on an empty bitmap
sequence it fails (processed[0] has no page to save), and if the codec
fails on any page no output bytes are produced at all. -/
theorem assembleBytes_all_or_nothing {β : Type} (encode : Page → Option β)
    (l : List Bitmap) (dpi : ℕ)
    (h : l = [] ∨ ∃ im ∈ l, encode ⟨im, dpi⟩ = none) :
    assembleBytes encode l dpi = none := by
  rcases h with rfl | ⟨im, him, henc⟩
  · rfl
  · cases l with
    | nil => simp at him
    | cons a as =>
      have h2 : encodePages encode ((a :: as).map fun im => ⟨im, dpi⟩) = none :=
        encodePages_eq_none encode _
          ⟨⟨im, dpi⟩, List.mem_map_of_mem _ him, henc⟩
      simp only [List.map_cons] at h2
      simp [assembleBytes, assemble, h2]

/-- C5 (witness). A codec that fails on every page yields no output on a
one-bitmap document, and the hypothesis is discharged at that input. -/
theorem assembleBytes_all_or_nothing_witness :
    (([bmp 1 1] : List Bitmap) = []
      ∨ ∃ im ∈ ([bmp 1 1] : List Bitmap),
          (fun _ : Page => (none : Option ℕ)) ⟨im, 300⟩ = none)
    ∧ assembleBytes (fun _ : Page => (none : Option ℕ)) [bmp 1 1] 300 = none :=
  ⟨Or.inr ⟨bmp 1 1, by simp, rfl⟩,
    assembleBytes_all_or_nothing (fun _ => none) [bmp 1 1] 300
      (Or.inr ⟨bmp 1 1, by simp, rfl⟩)⟩

/-- C6. The preset registry has exactly the three fixed entries High
(scale 1, DPI 300), Medium (scale 1/2, DPI 150), Low (scale 1/4, DPI 72),
in that order; for every entry the scale lies in [0.05, 1] and the DPI tag
is one of 300, 150, 72. The registry is a Lean constant, hence immutable
by construction, matching read-only-after-initialization. -/
theorem quality_presets_fixed :
    QUALITY_PRESETS
        = [⟨"High (300 DPI)", 1, 300⟩, ⟨"Medium (150 DPI)", 1/2, 150⟩,
           ⟨"Low (72 DPI)", 1/4, 72⟩]
    ∧ QUALITY_PRESETS.length = 3
    ∧ ∀ p ∈ QUALITY_PRESETS,
        1/20 ≤ p.scale ∧ p.scale ≤ 1 ∧ (p.dpi = 300 ∨ p.dpi = 150 ∨ p.dpi = 72) := by
  refine ⟨rfl, rfl, ?_⟩
  intro p hp
  simp only [QUALITY_PRESETS, List.mem_cons, List.not_mem_nil, or_false] at hp
  rcases hp with rfl | rfl | rfl <;> norm_num

/-- C6 (witness). The registry bounds evaluated at the Medium entry. -/
theorem quality_presets_fixed_witness :
    (⟨"Medium (150 DPI)", 1/2, 150⟩ : Preset) ∈ QUALITY_PRESETS
    ∧ (1/20 ≤ (Preset.mk "Medium (150 DPI)" (1/2) 150).scale
        ∧ (Preset.mk "Medium (150 DPI)" (1/2) 150).scale ≤ 1
        ∧ ((Preset.mk "Medium (150 DPI)" (1/2) 150).dpi = 300
            ∨ (Preset.mk "Medium (150 DPI)" (1/2) 150).dpi = 150
            ∨ (Preset.mk "Medium (150 DPI)" (1/2) 150).dpi = 72)) :=
  ⟨by unfold QUALITY_PRESETS; exact List.mem_cons_of_mem _ (List.mem_cons_self _ _),
    quality_presets_fixed.2.2 _
      (by unfold QUALITY_PRESETS; exact List.mem_cons_of_mem _ (List.mem_cons_self _ _))⟩

/-- C7. For every scale factor ≥ 1.0 the resampler returns the input
bitmap itself, unchanged in dimensions, mode and pixel data. The embedding
is purely functional, so no call of resample modifies its input: the
original bitmap value is intact after the operation by construction. -/
theorem resample_passthrough (flt : Bitmap → ℕ → ℕ → (ℕ → ℕ → Pixel))
    (scale : ℚ) (im : Bitmap) (h : 1 ≤ scale) :
    resample flt scale im = im := by
  simp only [resample]
  rw [if_neg (not_lt.mpr h)]

/-- C7 (witness). Pass-through at scale 1 on a concrete bitmap. -/
theorem resample_passthrough_witness :
    (1 : ℚ) ≤ 1 ∧ resample constFilter 1 (bmp 2 3) = bmp 2 3 :=
  ⟨le_refl 1, resample_passthrough constFilter 1 (bmp 2 3) (le_refl 1)⟩

/-- C8. For every scale factor, the resampler output of a bitmap with
positive dimensions (every decoded image has positive dimensions) is at
least 1x1; in particular a 2x2 bitmap at scale 1/4 yields exactly 1x1,
never 0x0. -/
theorem resample_dims_at_least_one (flt : Bitmap → ℕ → ℕ → (ℕ → ℕ → Pixel))
    (scale : ℚ) (im : Bitmap) (hw : 1 ≤ im.width) (hh : 1 ≤ im.height) :
    (1 ≤ (resample flt scale im).width ∧ 1 ≤ (resample flt scale im).height)
    ∧ ((resample flt (1/4) (bmp 2 2)).width = 1
        ∧ (resample flt (1/4) (bmp 2 2)).height = 1) := by
  have hq : (1 : ℚ)/4 < 1 := by norm_num
  constructor
  · by_cases h : scale < 1
    · simp only [resample, if_pos h, Bitmap.resize, newDim]
      exact ⟨le_max_left _ _, le_max_left _ _⟩
    · simp only [resample, if_neg h]
      exact ⟨hw, hh⟩
  · simp only [resample, if_pos hq, Bitmap.resize, bmp]
    constructor <;> norm_num [newDim, pyInt]

/-- C8 (witness). The minimum-dimension guarantee at a 2x2 bitmap and
scale 1/4. -/
theorem resample_dims_at_least_one_witness :
    1 ≤ (bmp 2 2).width ∧ 1 ≤ (bmp 2 2).height
    ∧ ((1 ≤ (resample constFilter (1/4) (bmp 2 2)).width
          ∧ 1 ≤ (resample constFilter (1/4) (bmp 2 2)).height)
        ∧ ((resample constFilter (1/4) (bmp 2 2)).width = 1
            ∧ (resample constFilter (1/4) (bmp 2 2)).height = 1)) :=
  ⟨by decide, by decide,
    resample_dims_at_least_one constFilter (1/4) (bmp 2 2) (by decide) (by decide)⟩

/-- Helper for C9: one axis of the downscale at scale 1/2 of a
100-pixel-wide axis gives 50. -/
lemma newDim_100_half : newDim 100 (1/2) = 50 := by
  norm_num [newDim, pyInt]
  rfl

/-- C9. End to end: two 100x100 RGB bitmaps with the Medium preset
selected (scale 1/2, DPI 150) convert into a document of exactly 2 pages,
each page tagged resolution 150 and holding a 50x50 bitmap. -/
theorem convert_medium_end_to_end (flt : Bitmap → ℕ → ℕ → (ℕ → ℕ → Pixel))
    (b1 b2 : Bitmap)
    (h1w : b1.width = 100) (h1h : b1.height = 100) (_h1m : b1.mode = "RGB")
    (h2w : b2.width = 100) (h2h : b2.height = 100) (_h2m : b2.mode = "RGB") :
    ∃ m, selectPreset "Medium (150 DPI)" = some m
      ∧ ∃ pages, convertToPdf flt [b1, b2] m.scale m.dpi = some pages
        ∧ pages.length = 2
        ∧ ∀ p ∈ pages,
            p.resolution = 150 ∧ p.image.width = 50 ∧ p.image.height = 50 := by
  have hhalf : (1 : ℚ)/2 < 1 := by norm_num
  have key : ∀ b : Bitmap, b.width = 100 → b.height = 100 →
      (resample flt (1/2) b).width = 50 ∧ (resample flt (1/2) b).height = 50 := by
    intro b hw hh
    simp only [resample, if_pos hhalf, Bitmap.resize]
    rw [hw, hh]
    exact ⟨newDim_100_half, newDim_100_half⟩
  refine ⟨⟨"Medium (150 DPI)", 1/2, 150⟩, rfl,
    [⟨resample flt (1/2) b1, 150⟩, ⟨resample flt (1/2) b2, 150⟩], rfl, rfl, ?_⟩
  intro p hp
  simp only [List.mem_cons, List.not_mem_nil, or_false] at hp
  rcases hp with rfl | rfl
  · exact ⟨rfl, key b1 h1w h1h⟩
  · exact ⟨rfl, key b2 h2w h2h⟩

/-- C9 (witness). The end-to-end statement at two concrete 100x100 RGB
bitmaps. -/
theorem convert_medium_end_to_end_witness :
    (bmp 100 100).width = 100 ∧ (bmp 100 100).height = 100
    ∧ (bmp 100 100).mode = "RGB"
    ∧ ∃ m, selectPreset "Medium (150 DPI)" = some m
        ∧ ∃ pages, convertToPdf constFilter [bmp 100 100, bmp 100 100] m.scale m.dpi
              = some pages
          ∧ pages.length = 2
          ∧ ∀ p ∈ pages,
              p.resolution = 150 ∧ p.image.width = 50 ∧ p.image.height = 50 :=
  ⟨rfl, rfl, rfl,
    convert_medium_end_to_end constFilter (bmp 100 100) (bmp 100 100)
      rfl rfl rfl rfl rfl rfl⟩

/-- C10 (implicit). Downscaling never enlarges: for every bitmap with
positive dimensions and every scale factor strictly between 0 and 1, both
output dimensions are at most the corresponding input dimensions. -/
theorem resample_no_enlarge (flt : Bitmap → ℕ → ℕ → (ℕ → ℕ → Pixel))
    (scale : ℚ) (im : Bitmap)
    (hw : 1 ≤ im.width) (hh : 1 ≤ im.height) (h0 : 0 < scale) (h1 : scale < 1) :
    (resample flt scale im).width ≤ im.width
    ∧ (resample flt scale im).height ≤ im.height := by
  have key : ∀ d : ℕ, 1 ≤ d → newDim d scale ≤ d := by
    intro d hd
    unfold newDim pyInt
    rw [if_pos (mul_nonneg (by positivity) h0.le)]
    apply max_le hd
    have h2 : ((d : ℚ) * scale) ≤ (d : ℚ) := by
      calc (d : ℚ) * scale ≤ (d : ℚ) * 1 :=
            mul_le_mul_of_nonneg_left h1.le (by positivity)
        _ = (d : ℚ) := mul_one _
    have h3 : ⌊(d : ℚ) * scale⌋ ≤ (d : ℤ) := by
      calc ⌊(d : ℚ) * scale⌋ ≤ ⌊(d : ℚ)⌋ := Int.floor_le_floor h2
        _ = (d : ℤ) := Int.floor_natCast d
    calc (⌊(d : ℚ) * scale⌋).toNat ≤ ((d : ℤ)).toNat := Int.toNat_le_toNat h3
      _ = d := Int.toNat_natCast d
  simp only [resample, if_pos h1, Bitmap.resize]
  exact ⟨key im.width hw, key im.height hh⟩

/-- C10 (witness). No enlargement at a concrete 100x80 bitmap and
scale 1/2. -/
theorem resample_no_enlarge_witness :
    1 ≤ (bmp 100 80).width ∧ 1 ≤ (bmp 100 80).height
    ∧ (0 : ℚ) < 1/2 ∧ (1 : ℚ)/2 < 1
    ∧ ((resample constFilter (1/2) (bmp 100 80)).width ≤ (bmp 100 80).width
        ∧ (resample constFilter (1/2) (bmp 100 80)).height ≤ (bmp 100 80).height) :=
  ⟨by decide, by decide, by norm_num, by norm_num,
    resample_no_enlarge constFilter (1/2) (bmp 100 80)
      (by decide) (by decide) (by norm_num) (by norm_num)⟩

end PngToPdf
